import Mathlib

/-!
A verification development for the registry core of `django_stratagem`
(files `conditions.py`, `interfaces.py`, `registry.py`, `utils.py`).

The Python code is shallowly embedded:

* a *context* (`dict[str, Any]`, used by conditions only through boolean
  lookups) is an association list `Ctx` from keys to booleans; a missing key
  reads as `false`, matching `context.get(key)` being falsy;
* a *condition* (`conditions.Condition`) is the inductive `Cond`: leaf
  conditions (`CallableCondition` and the other leaves, which are all just
  boolean functions of the evaluation environment) become `Cond.pred f`,
  and the compound classes `AllConditions` / `AnyCondition` / `NotCondition`
  keep their list / single-child structure;
* a Python *class object* is a `Impl` structure: its `id` field models
  object identity (Python `is`), `supers` the set of ids the class
  `issubclass`-es into, `slug` / `description` / `icon` / `priority` the
  attributes `register` reads, `avail` the optional `is_available`
  classmethod, and `parent_slug` / `parent_slugs` the
  `HierarchicalInterface` attributes;
* a registry's mutable class state `cls.implementations` (a Python `dict`,
  which preserves insertion order and keeps the position of a key on
  overwrite) is an association list `Catalog`; `dictInsert` mirrors the
  Python dict assignment exactly;
* dynamic import (`utils.import_by_name` / `utils.get_class` on a string)
  is an association list `ImportEnv` from fully qualified names to class
  objects; absence models an import / attribute failure;
* a raised exception is an `Except RegError` error value; the error
  constructors follow the taxonomy the registry actually uses
  (`ValueError`, `TypeError`, `ImplementationNotFound`, and the import
  errors that `Registry.get` re-raises);
* the observable side effects of `register` (the overwrite warning, the
  store, `clear_cache`, the `on_register` hook, the
  `implementation_registered` signal) are an explicit `Event` trace, in
  emission order; an aborted registration returns `.error` and therefore
  produces no new catalog and no events, which is exactly "no side
  effects".

Caching (`django.core.cache`) memoises `get_choices` / `get_items` between
writes; the embedding models the recomputation path (the cache-miss branch),
which is the value the cache stores.  `interface_class` may be given as a
dotted string in Python and is resolved through `import_by_name` first; the
embedding takes it already resolved (an `Option Nat` class id), which is the
only form the claims exercise.
-/

namespace DjangoStratagem

/-! ### Contexts and conditions (`conditions.py`) -/

/-- A runtime context: the boolean fragment of `dict[str, Any]` that the
claims' conditions read. -/
abbrev Ctx := List (String × Bool)

/-- Embeds `context.get(key)` coerced to a boolean: a missing key is falsy. -/
def ctxGet (ctx : Ctx) (k : String) : Bool :=
  match ctx.lookup k with
  | some b => b
  | none => false

/-- Embeds `conditions.Condition` and its combinators.  `pred` stands for any leaf
condition (e.g. `CallableCondition`): a boolean function of the context.
`allOf` / `anyOf` / `notOf` are `AllConditions` / `AnyCondition` /
`NotCondition`. -/
inductive Cond where
  | pred (f : Ctx → Bool)
  | allOf (cs : List Cond)
  | anyOf (cs : List Cond)
  | notOf (c : Cond)

mutual

/-- Embeds `Condition.is_met` (dispatching on the concrete subclass). -/
def Cond.is_met : Cond → Ctx → Bool
  | .pred f, ctx => f ctx
  | .allOf cs, ctx => Cond.listAll cs ctx
  | .anyOf cs, ctx => Cond.listAny cs ctx
  | .notOf c, ctx => !(Cond.is_met c ctx)

/-- Embeds `all(cond.is_met(context) for cond in self.conditions)`. -/
def Cond.listAll : List Cond → Ctx → Bool
  | [], _ => true
  | c :: cs, ctx => Cond.is_met c ctx && Cond.listAll cs ctx

/-- Embeds `any(cond.is_met(context) for cond in self.conditions)`. -/
def Cond.listAny : List Cond → Ctx → Bool
  | [], _ => false
  | c :: cs, ctx => Cond.is_met c ctx || Cond.listAny cs ctx

end

/-- Embeds `Condition.__and__`: `AllConditions([self, other])`. -/
def Cond.and (x y : Cond) : Cond := .allOf [x, y]

/-- Embeds `Condition.__or__`: `AnyCondition([self, other])`. -/
def Cond.or (x y : Cond) : Cond := .anyOf [x, y]

/-- Embeds `Condition.__invert__`: `NotCondition(self)`. -/
def Cond.inv (x : Cond) : Cond := .notOf x

/-- The condition of the tests' example `X`: true iff `context.a`. -/
def condA : Cond := .pred (fun ctx => ctxGet ctx "a")

/-- The condition of the tests' example `Y`: true iff `context.b`. -/
def condB : Cond := .pred (fun ctx => ctxGet ctx "b")

/-- C7: the operator combinators are boolean algebra: `&` conjoins, `|`
disjoins and `~` negates `is_met`, both in general and on the concrete
contexts named by the spec. -/
theorem C7_condition_algebra :
    (∀ (x y : Cond) (ctx : Ctx),
        (x.and y).is_met ctx = (x.is_met ctx && y.is_met ctx)
      ∧ (x.or y).is_met ctx = (x.is_met ctx || y.is_met ctx)
      ∧ (x.inv).is_met ctx = !(x.is_met ctx))
    ∧ (condA.and condB).is_met [("a", true), ("b", false)] = false
    ∧ (condA.or condB).is_met [("a", true), ("b", false)] = true
    ∧ (condA.inv).is_met [("a", false)] = true := by
  refine ⟨fun x y ctx => ⟨?_, ?_, ?_⟩, rfl, rfl, rfl⟩
  · simp [Cond.and, Cond.is_met, Cond.listAll]
  · simp [Cond.or, Cond.is_met, Cond.listAny]
  · simp [Cond.inv, Cond.is_met]

/-! ### Class objects and interfaces (`interfaces.py`) -/

/-- A Python class object as the registry sees it.  `id` is object identity
(Python `is`); `supers` holds the ids of every strict superclass, so
`issubclass` and `isinstance` become id membership; `avail` is the optional
`is_available` classmethod (it receives the raw, possibly-`None`, context);
`parent_slug` / `parent_slugs` are the `HierarchicalInterface` attributes.
`slug` is `Option` because `getattr(implementation, "slug", None)` may find
no attribute. -/
structure Impl where
  id : Nat
  slug : Option String := none
  description : String := ""
  icon : String := ""
  priority : Int := 0
  supers : List Nat := []
  avail : Option (Option Ctx → Bool) := none
  parent_slug : Option String := none
  parent_slugs : Option (List String) := none

/-- Embeds `issubclass(c, <class with id target>)` (also `isinstance` of an
instance of `c`): `c` is that class or lists it among its superclasses. -/
def subclassId (c : Impl) (target : Nat) : Bool :=
  c.id == target || c.supers.contains target

/-- Python truthiness of an optional string (`None` and `""` are falsy). -/
def truthyStr : Option String → Bool
  | none => false
  | some s => s ≠ ""

/-- Python truthiness of an optional list (`None` and `[]` are falsy). -/
def truthyList : Option (List String) → Bool
  | none => false
  | some l => !l.isEmpty

/-- Embeds `HierarchicalInterface.is_valid_for_parent`. -/
def HierarchicalInterface.is_valid_for_parent (impl : Impl) (parent : String) : Bool :=
  if truthyStr impl.parent_slug then parent == impl.parent_slug.getD ""
  else if truthyList impl.parent_slugs then (impl.parent_slugs.getD []).contains parent
  else true

/-- Embeds `ConditionalInterface.is_available`: true when no condition is set,
otherwise the condition evaluated against the context (`None` becomes `{}`). -/
def condIsAvailable (condition : Option Cond) (context : Option Ctx) : Bool :=
  match condition with
  | none => true
  | some c => c.is_met (context.getD [])

/-! ### The registry (`registry.py`) -/

/-- Embeds `ImplementationMeta`: the catalog record `build_implementation_meta`
produces.  `klass` is `Option` exactly as in the `TypedDict`. -/
structure ImplementationMeta where
  klass : Option Impl
  description : String
  icon : String
  priority : Int

/-- Embeds `cls.implementations`: a Python dict, i.e. an insertion-ordered
association list with unique keys. -/
abbrev Catalog := List (String × ImplementationMeta)

/-- The import system seen through `utils.import_by_name` /
`utils.get_class`: which fully qualified names resolve, and to what.  A name
that is absent raises (`ImportError` / `AttributeError` / invalid-name
`ValueError`), which the embedding folds into one import-failure error. -/
abbrev ImportEnv := List (String × Impl)

/-- The exception taxonomy the registry raises: `ValueError`
(invalid argument), `TypeError` (failed supertype / non-string slug),
`ImplementationNotFound`, and the import-failure family. -/
inductive RegError where
  | valueError
  | typeError
  | notFound
  | importError
deriving DecidableEq, Repr

/-- Per-registry configuration: the optional `interface_class` constraint,
given already resolved (a class id). -/
structure RegistryConfig where
  interface_class : Option Nat := none

/-- The observable side effects of `register` / `unregister`, in emission
order: the overwrite warning log, the store into `cls.implementations`,
`clear_cache`, the `on_register` hook, the `implementation_registered`
signal. -/
inductive Event where
  | warnOverwrite (slug : String)
  | stored (slug : String)
  | cacheCleared
  | onRegisterHook (slug : String)
  | signalRegistered (slug : String)
deriving DecidableEq, Repr

/-- Assignment into a Python dict: overwrite in place when the key exists
(keeping its position), else append. -/
def dictInsert (cat : Catalog) (k : String) (v : ImplementationMeta) : Catalog :=
  if (cat.lookup k).isSome then
    cat.map (fun p => if p.1 = k then (k, v) else p)
  else
    cat ++ [(k, v)]

/-- Embeds `Registry.validate_implementation` (the default hook): reject a falsy
slug with `ValueError`; when `interface_class` is set, reject a
non-subclass with `TypeError`. -/
def Registry.validate_implementation (cfg : RegistryConfig) (impl : Impl) :
    Except RegError Unit :=
  if !truthyStr impl.slug then .error .valueError
  else
    match cfg.interface_class with
    | some ic => if subclassId impl ic then .ok () else .error .typeError
    | none => .ok ()

/-- Embeds `Registry.build_implementation_meta` (the default hook). -/
def Registry.build_implementation_meta (impl : Impl) : ImplementationMeta :=
  { klass := some impl
    description := impl.description
    icon := impl.icon
    priority := impl.priority }

/-- Embeds `Registry.register`, parameterised by the (overridable) validation and
metadata hooks.  Steps, as in the source: validate; re-read the slug
(a missing slug at this point is the `TypeError` of the `isinstance`
guard); build the metadata; log the overwrite warning when a *different*
class already owns the slug; store; clear caches; run `on_register`; send
`implementation_registered`.  An error return models an exception escaping
`register`: no store, no cache invalidation, no hook, no signal. -/
def Registry.registerWith (validate : Impl → Except RegError Unit)
    (buildMeta : Impl → ImplementationMeta)
    (cat : Catalog) (impl : Impl) : Except RegError (Catalog × List Event) :=
  match validate impl with
  | .error e => .error e
  | .ok _ =>
    match impl.slug with
    | none => .error .typeError
    | some slug =>
      let meta := buildMeta impl
      let warnEvents :=
        match cat.lookup slug with
        | some old =>
          if old.klass.map Impl.id = some impl.id then []
          else [Event.warnOverwrite slug]
        | none => []
      .ok (dictInsert cat slug meta,
        warnEvents ++ [Event.stored slug, Event.cacheCleared,
          Event.onRegisterHook slug, Event.signalRegistered slug])

/-- Embeds `Registry.register` with the default hooks. -/
def Registry.register (cfg : RegistryConfig) (cat : Catalog) (impl : Impl) :
    Except RegError (Catalog × List Event) :=
  Registry.registerWith (Registry.validate_implementation cfg)
    Registry.build_implementation_meta cat impl

/-- Embeds `Registry.get`: by (truthy) slug first, else by (truthy) fully qualified
name, else `ValueError`.  A slug hit instantiates the stored class (the
`.ok` value is the class a fresh instance is made of); a slug miss is
`ImplementationNotFound`; an import failure on the name path propagates. -/
def Registry.get (cat : Catalog) (env : ImportEnv)
    (slug fully_qualified_name : Option String) : Except RegError Impl :=
  if truthyStr slug then
    match cat.lookup (slug.getD "") with
    | none => .error .notFound
    | some meta =>
      match meta.klass with
      | some k => .ok k
      | none => .error .typeError
  else if truthyStr fully_qualified_name then
    match env.lookup (fully_qualified_name.getD "") with
    | none => .error .importError
    | some k => .ok k
  else .error .valueError

/-- Embeds `Registry.get_class`: same selector logic as `get` but returns the
stored `klass` field uninstantiated (which the source returns even when it
is `None`). -/
def Registry.get_class (cat : Catalog) (env : ImportEnv)
    (slug fully_qualified_name : Option String) : Except RegError (Option Impl) :=
  if truthyStr slug then
    match cat.lookup (slug.getD "") with
    | none => .error .notFound
    | some meta => .ok meta.klass
  else if truthyStr fully_qualified_name then
    match env.lookup (fully_qualified_name.getD "") with
    | none => .error .importError
    | some k => .ok (some k)
  else .error .valueError

/-- The kinds of value `Registry.is_valid` accepts: a string (slug or fully
qualified name), a class object, or an instance of a class. -/
inductive PyValue where
  | str (s : String)
  | cls (c : Impl)
  | inst (c : Impl)

/-- Embeds `Registry.is_valid`, following the source case by case.  Strings: a
registered slug is immediately valid; otherwise the string is imported (a
failure is caught and counts as invalid) and, with an `interface_class`
set, `issubclass` alone decides; without one, identity with a registered
class decides.  Classes: the constraint (if any) and identity with a
registered class.  Instances: with a constraint, `isinstance` of the
constraint alone is enough; otherwise (or failing that) `isinstance` of
some registered class. -/
def Registry.is_valid (cfg : RegistryConfig) (cat : Catalog) (env : ImportEnv)
    (v : PyValue) : Bool :=
  match v with
  | .str s =>
    if (cat.lookup s).isSome then true
    else
      match env.lookup s with
      | none => false
      | some impl =>
        match cfg.interface_class with
        | some ic => subclassId impl ic
        | none => cat.any (fun p => p.2.klass.map Impl.id == some impl.id)
  | .cls c =>
    (match cfg.interface_class with
     | some ic => subclassId c ic
     | none => true)
    && cat.any (fun p => p.2.klass.map Impl.id == some c.id)
  | .inst c =>
    match cfg.interface_class with
    | some ic =>
      if subclassId c ic then true
      else cat.any (fun p =>
        match p.2.klass with
        | some k => subclassId c k.id
        | none => false)
    | none => cat.any (fun p =>
      match p.2.klass with
      | some k => subclassId c k.id
      | none => false)

/-- The availability test `get_available_implementations` applies to one
catalog entry: a `None` class or a class without a callable `is_available`
is always available; otherwise `is_available(context)` decides. -/
def availPass (meta : ImplementationMeta) (context : Option Ctx) : Bool :=
  match meta.klass with
  | some k =>
    match k.avail with
    | some f => f context
    | none => true
  | none => true

/-- Embeds `Registry.get_available_implementations`: the catalog filtered by
`availPass`, as a slug → class mapping in catalog order. -/
def Registry.get_available_implementations (cat : Catalog) (context : Option Ctx) :
    List (String × Option Impl) :=
  (cat.filter (fun p => availPass p.2 context)).map (fun p => (p.1, p.2.klass))

/-- The sort key of `get_choices`: ascending `priority` (Python's `sorted`
is stable, so ties keep catalog order). -/
def priorityRel (p q : String × ImplementationMeta) : Prop :=
  p.2.priority ≤ q.2.priority

instance : DecidableRel priorityRel := fun p q => by
  unfold priorityRel; infer_instance

instance : IsTotal (String × ImplementationMeta) priorityRel :=
  ⟨fun p q => Int.le_total p.2.priority q.2.priority⟩

instance : IsTrans (String × ImplementationMeta) priorityRel :=
  ⟨fun _ _ _ h h' => le_trans h h'⟩

/-- Embeds `Registry.get_choices` (the cache-miss computation, which is also the
cached value): the catalog stably sorted by `priority`, rendered as
`(slug, display label)` pairs.  The label is `get_display_name` of the
stored class, abstracted as the function `disp` (its value never affects
the ordering). -/
def Registry.get_choices (disp : Option Impl → String) (cat : Catalog) :
    List (String × String) :=
  (cat.insertionSort priorityRel).map (fun p => (p.1, disp p.2.klass))

/-- Embeds `Registry.get_for_context`.  Inside the `try`: resolve by slug, else by
name, else nothing; a resolved implementation is returned at once when its
class has no `is_available`, or when `is_available(context)` holds;
exceptions and an unavailable implementation fall through.  Then: a truthy
`fallback` slug goes straight through `get` (no availability check, and a
miss propagates `ImplementationNotFound`); else the first available
implementation; else `ImplementationNotFound`. -/
def Registry.get_for_context (cat : Catalog) (env : ImportEnv) (context : Option Ctx)
    (slug fully_qualified_name fallback : Option String) : Except RegError Impl :=
  let attempted : Except RegError (Option Impl) :=
    if truthyStr slug then (Registry.get cat env slug none).map some
    else if truthyStr fully_qualified_name then
      (Registry.get cat env none fully_qualified_name).map some
    else .ok none
  let fromTry : Option Impl :=
    match attempted with
    | .error _ => none
    | .ok none => none
    | .ok (some impl) =>
      match impl.avail with
      | some f => if f context then some impl else none
      | none => some impl
  match fromTry with
  | some impl => .ok impl
  | none =>
    if truthyStr fallback then Registry.get cat env fallback none
    else
      match Registry.get_available_implementations cat context with
      | [] => .error .notFound
      | (s, _) :: _ => Registry.get cat env (some s) none

/-! ### The hierarchical registry (`registry.py`, `HierarchicalRegistry`) -/

/-- Embeds `HierarchicalRegistry.validate_parent_child_relationship`.
`parent_slugs` is the registry-level `cls.parent_slugs` restriction list
(`None` by default). -/
def HierarchicalRegistry.validate_parent_child_relationship
    (parent_slugs : Option (List String)) (cat : Catalog)
    (parent_slug child_slug : String) : Bool :=
  if !truthyList parent_slugs then (cat.lookup child_slug).isSome
  else if !((parent_slugs.getD []).contains parent_slug) then false
  else (cat.lookup child_slug).isSome

/-- Modelled from the spec's words for claim C5 (the sentence in §4.2):
"true iff `childSlug` is a registered entry here AND (`allowedParentSlugs`
is unset OR contains `parentSlug`)" — with "unset" read literally as the
list being absent. -/
def validate_parent_child_relationship_spec
    (parent_slugs : Option (List String)) (cat : Catalog)
    (parent_slug child_slug : String) : Bool :=
  (cat.lookup child_slug).isSome
    && (parent_slugs.isNone || (parent_slugs.getD []).contains parent_slug)

/-! ### Association-list (Python dict) helper lemmas -/

theorem lookup_map_replace (cat : Catalog) (k : String) (v : ImplementationMeta) :
    (cat.lookup k).isSome →
    (cat.map (fun p => if p.1 = k then (k, v) else p)).lookup k = some v := by
  induction cat with
  | nil => intro h; simp at h
  | cons p cat ih =>
    obtain ⟨pk, pv⟩ := p
    intro h
    by_cases hp : pk = k
    · subst hp
      simp [List.lookup_cons]
    · have hb : (k == pk) = false := by simp; exact fun he => hp he.symm
      simp only [List.map_cons, if_neg hp, List.lookup_cons, hb]
      apply ih
      simpa [List.lookup_cons, hb] using h

theorem lookup_map_replace_ne (cat : Catalog) (k t : String) (v : ImplementationMeta)
    (ht : t ≠ k) :
    (cat.map (fun p => if p.1 = k then (k, v) else p)).lookup t = cat.lookup t := by
  induction cat with
  | nil => simp
  | cons p cat ih =>
    obtain ⟨pk, pv⟩ := p
    by_cases hp : pk = k
    · subst hp
      have hb : (t == pk) = false := by simp [ht]
      simp [List.lookup_cons, hb, ih]
    · cases hbt : (t == pk) with
      | true => simp [List.lookup_cons, if_neg hp, hbt]
      | false => simp [List.lookup_cons, if_neg hp, hbt, ih]

theorem lookup_dictInsert_self (cat : Catalog) (k : String) (v : ImplementationMeta) :
    (dictInsert cat k v).lookup k = some v := by
  unfold dictInsert
  split
  · exact lookup_map_replace cat k v (by assumption)
  · rename_i h
    have h' : cat.lookup k = none := by
      cases hx : cat.lookup k with
      | none => rfl
      | some b => rw [hx] at h; simp at h
    rw [List.lookup_append, h']
    simp

theorem lookup_dictInsert_ne (cat : Catalog) (k t : String) (v : ImplementationMeta)
    (ht : t ≠ k) :
    (dictInsert cat k v).lookup t = cat.lookup t := by
  unfold dictInsert
  split
  · exact lookup_map_replace_ne cat k t v ht
  · rw [List.lookup_append]
    have hb : (t == k) = false := by simp [ht]
    cases hx : cat.lookup t with
    | some b => simp
    | none => simp [List.lookup_cons, hb]

theorem keys_dictInsert_present (cat : Catalog) (k : String) (v : ImplementationMeta)
    (h : (cat.lookup k).isSome) :
    (dictInsert cat k v).map Prod.fst = cat.map Prod.fst := by
  unfold dictInsert
  rw [if_pos h, List.map_map]
  apply List.map_congr_left
  intro p _
  by_cases hp : p.1 = k <;> simp [hp]

theorem keys_dictInsert_absent (cat : Catalog) (k : String) (v : ImplementationMeta)
    (h : cat.lookup k = none) :
    (dictInsert cat k v).map Prod.fst = cat.map Prod.fst ++ [k] := by
  unfold dictInsert
  rw [if_neg (by simp [h])]
  simp

theorem notMem_keys_of_lookup_none (cat : Catalog) (k : String)
    (h : cat.lookup k = none) : k ∉ cat.map Prod.fst := by
  rw [List.lookup_eq_none_iff] at h
  intro hmem
  rw [List.mem_map] at hmem
  obtain ⟨p, hp, hk⟩ := hmem
  have := h p hp
  simp [hk] at this

theorem mem_keys_of_lookup_isSome (cat : Catalog) (k : String)
    (h : (cat.lookup k).isSome) : k ∈ cat.map Prod.fst := by
  rw [List.lookup_isSome_iff] at h
  obtain ⟨p, hp, hk⟩ := h
  rw [List.mem_map]
  refine ⟨p, hp, ?_⟩
  have : k = p.1 := by simpa using hk
  exact this.symm

theorem keys_nodup_dictInsert (cat : Catalog) (k : String) (v : ImplementationMeta)
    (h : (cat.map Prod.fst).Nodup) :
    ((dictInsert cat k v).map Prod.fst).Nodup := by
  cases hx : cat.lookup k with
  | some b =>
    rw [keys_dictInsert_present cat k v (by simp [hx])]
    exact h
  | none =>
    rw [keys_dictInsert_absent cat k v hx]
    rw [List.nodup_append]
    exact ⟨h, List.nodup_singleton k,
      by simpa using fun hk => notMem_keys_of_lookup_none cat k hx hk⟩

/-! ### Claim C1: the register contract -/

/-- C1: `register` validates first and aborts with the validation error and
no side effects (no new catalog, no events) when validation raises; on
success it stores the built metadata under the slug (touching no other
slug), and its side effects are, in order: the optional overwrite warning,
the store, the cache invalidation, the `on_register` hook, and — always
last — the `implementation_registered` signal.  Stated for arbitrary
(overridable) validation and metadata hooks. -/
theorem C1_register_order_and_abort
    (validate : Impl → Except RegError Unit)
    (buildMeta : Impl → ImplementationMeta)
    (cat : Catalog) (impl : Impl) :
    (∀ e, validate impl = .error e →
      Registry.registerWith validate buildMeta cat impl = .error e)
    ∧ (Registry.registerWith validate buildMeta cat impl).isOk
        = ((validate impl).isOk && impl.slug.isSome)
    ∧ (∀ s cat' evs, impl.slug = some s →
        Registry.registerWith validate buildMeta cat impl = .ok (cat', evs) →
          cat'.lookup s = some (buildMeta impl)
        ∧ (∀ t, t ≠ s → cat'.lookup t = cat.lookup t)
        ∧ (evs = [.stored s, .cacheCleared, .onRegisterHook s, .signalRegistered s]
          ∨ evs = [.warnOverwrite s, .stored s, .cacheCleared, .onRegisterHook s,
              .signalRegistered s])
        ∧ evs.getLast? = some (.signalRegistered s)) := by
  refine ⟨?_, ?_, ?_⟩
  · intro e he
    simp [Registry.registerWith, he]
  · unfold Registry.registerWith
    cases hv : validate impl with
    | error e => simp [Except.isOk, Except.toBool]
    | ok u =>
      cases hs : impl.slug with
      | none => simp [Except.isOk, Except.toBool]
      | some s => simp [Except.isOk, Except.toBool]
  · intro s cat' evs hs hok
    unfold Registry.registerWith at hok
    cases hv : validate impl with
    | error e => rw [hv] at hok; exact absurd hok (by simp)
    | ok u =>
      rw [hv, hs] at hok
      simp only [Except.ok.injEq, Prod.mk.injEq] at hok
      obtain ⟨hcat, hevs⟩ := hok
      subst hcat
      refine ⟨lookup_dictInsert_self cat s (buildMeta impl),
        fun t ht => lookup_dictInsert_ne cat s t (buildMeta impl) ht, ?_, ?_⟩
      · cases hl : cat.lookup s with
        | none =>
          rw [hl] at hevs; left; exact hevs.symm
        | some old =>
          by_cases hid : old.klass.map Impl.id = some impl.id
          · left
            simp only [hl, hid, if_true] at hevs
            simpa using hevs.symm
          · right
            simp only [hl, if_neg hid] at hevs
            simpa using hevs.symm
      · cases hl : cat.lookup s with
        | none =>
          rw [hl] at hevs; rw [← hevs]; rfl
        | some old =>
          by_cases hid : old.klass.map Impl.id = some impl.id
          · simp only [hl, hid, if_true] at hevs
            rw [← hevs]; rfl
          · simp only [hl, if_neg hid] at hevs
            rw [← hevs]; rfl

/-! ### Claim C2: the `get` selector contract -/

/-- A registered class used by the concrete counterexamples. -/
def implA : Impl := { id := 1, slug := some "a" }

/-- A one-entry catalog holding `implA` under slug `"a"`. -/
def catA : Catalog := [("a", Registry.build_implementation_meta implA)]

/-- C2 counterexample: supplying *both* selectors does not raise the
invalid-argument error — the slug silently takes precedence and `get`
succeeds, although `"ext.B"` is not even importable here. -/
theorem C2_both_selectors_counterexample :
    Registry.get catA [] (some "a") (some "ext.B") = .ok implA
    ∧ Registry.get catA [] (some "a") (some "ext.B") ≠ .error .valueError := by
  constructor
  · rfl
  · intro h
    rw [(rfl : Registry.get catA [] (some "a") (some "ext.B") = .ok implA)] at h
    exact Except.noConfusion h

/-- C2 amended: `get` raises invalid-argument only when *neither* selector
is (truthily) given; when both are given the slug takes precedence and the
name is ignored; a truthy slug absent from the catalog raises
`ImplementationNotFound`; a name that fails to import propagates the import
error; on success the resolved class is instantiated and returned. -/
theorem C2_get_selectors_amended (cat : Catalog) (env : ImportEnv)
    (slug fqn : Option String) :
    (truthyStr slug = false → truthyStr fqn = false →
      Registry.get cat env slug fqn = .error .valueError)
    ∧ (∀ s, slug = some s → s ≠ "" → cat.lookup s = none →
        Registry.get cat env slug fqn = .error .notFound)
    ∧ (∀ s m k, slug = some s → s ≠ "" → cat.lookup s = some m → m.klass = some k →
        Registry.get cat env slug fqn = .ok k)
    ∧ (∀ f, truthyStr slug = false → fqn = some f → f ≠ "" → env.lookup f = none →
        Registry.get cat env slug fqn = .error .importError)
    ∧ (∀ f k, truthyStr slug = false → fqn = some f → f ≠ "" → env.lookup f = some k →
        Registry.get cat env slug fqn = .ok k) := by
  refine ⟨?_, ?_, ?_, ?_, ?_⟩
  · intro hs hf
    simp [Registry.get, hs, hf]
  · intro s hs hne hmiss
    subst hs
    simp [Registry.get, truthyStr, hne, hmiss]
  · intro s m k hs hne hhit hk
    subst hs
    simp [Registry.get, truthyStr, hne, hhit, hk]
  · intro f hs hf hne hmiss
    subst hf
    have hft : truthyStr (some f) = true := by simp [truthyStr, hne]
    simp [Registry.get, hs, hft, hmiss]
  · intro f k hs hf hne hhit
    subst hf
    have hft : truthyStr (some f) = true := by simp [truthyStr, hne]
    simp [Registry.get, hs, hft, hhit]

/-! ### Claim C3: `is_valid` -/

/-- A registry constraining implementations to the interface with id 100. -/
def cfg100 : RegistryConfig := { interface_class := some 100 }

/-- An importable class satisfying interface 100, *not* registered. -/
def implFree : Impl := { id := 7, slug := some "c", supers := [100] }

/-- An import environment resolving `"ext.C"` to `implFree`. -/
def envFree : ImportEnv := [("ext.C", implFree)]

/-- C3 counterexample: with an interface constraint set, `is_valid` accepts
a fully-qualified name that imports to a constraint-satisfying class, and
an instance of such a class, although the catalog is empty — the value does
not correspond to any currently-registered implementation. -/
theorem C3_unregistered_accepted_counterexample :
    Registry.is_valid cfg100 [] envFree (.str "ext.C") = true
    ∧ Registry.is_valid cfg100 [] envFree (.inst implFree) = true
    ∧ ([] : Catalog).lookup "ext.C" = none
    ∧ ([] : Catalog).any (fun p => p.2.klass.map Impl.id == some implFree.id) = false := by
  exact ⟨rfl, rfl, rfl, rfl⟩

/-- C3 amended: `is_valid` never raises (an import failure yields `false`)
and checks registration for slugs, for classes, and for instances *without*
a satisfied constraint — but when an `interface_class` is declared, a
fully-qualified name importing to a subclass of it, or an instance of a
subclass of it, is accepted without any registration check. -/
theorem C3_is_valid_amended (cfg : RegistryConfig) (cat : Catalog) (env : ImportEnv) :
    (∀ s, (cat.lookup s).isSome = true →
      Registry.is_valid cfg cat env (.str s) = true)
    ∧ (∀ s, cat.lookup s = none → env.lookup s = none →
        Registry.is_valid cfg cat env (.str s) = false)
    ∧ (∀ s impl ic, cat.lookup s = none → env.lookup s = some impl →
        cfg.interface_class = some ic →
        Registry.is_valid cfg cat env (.str s) = subclassId impl ic)
    ∧ (∀ s impl, cat.lookup s = none → env.lookup s = some impl →
        cfg.interface_class = none →
        (Registry.is_valid cfg cat env (.str s) = true
          ↔ ∃ p ∈ cat, p.2.klass.map Impl.id = some impl.id))
    ∧ (∀ c, Registry.is_valid cfg cat env (.cls c) = true
        ↔ ((∀ ic, cfg.interface_class = some ic → subclassId c ic = true)
            ∧ ∃ p ∈ cat, p.2.klass.map Impl.id = some c.id))
    ∧ (∀ c ic, cfg.interface_class = some ic → subclassId c ic = true →
        Registry.is_valid cfg cat env (.inst c) = true)
    ∧ (∀ c, (∀ ic, cfg.interface_class = some ic → subclassId c ic = false) →
        (Registry.is_valid cfg cat env (.inst c) = true
          ↔ ∃ p ∈ cat, ∃ k, p.2.klass = some k ∧ subclassId c k.id = true)) := by
  refine ⟨?_, ?_, ?_, ?_, ?_, ?_, ?_⟩
  · intro s h
    simp [Registry.is_valid, h]
  · intro s hmiss himp
    simp [Registry.is_valid, hmiss, himp]
  · intro s impl ic hmiss himp hic
    simp [Registry.is_valid, hmiss, himp, hic]
  · intro s impl hmiss himp hic
    simp only [Registry.is_valid, hmiss, himp, hic, Option.isSome_none, Bool.false_eq_true,
      if_false, List.any_eq_true, beq_iff_eq]
  · intro c
    cases hic : cfg.interface_class with
    | none =>
      simp [Registry.is_valid, hic, List.any_eq_true]
    | some ic =>
      simp only [Registry.is_valid, hic, Bool.and_eq_true, List.any_eq_true, beq_iff_eq]
      constructor
      · rintro ⟨h1, h2⟩
        exact ⟨fun ic' hic' => by cases hic'; exact h1, h2⟩
      · rintro ⟨h1, h2⟩
        exact ⟨h1 ic rfl, h2⟩
  · intro c ic hic hsub
    simp [Registry.is_valid, hic, hsub]
  · intro c hno
    cases hic : cfg.interface_class with
    | none =>
      simp only [Registry.is_valid, hic, List.any_eq_true]
      constructor
      · rintro ⟨p, hp, hk⟩
        refine ⟨p, hp, ?_⟩
        cases hkl : p.2.klass with
        | none => rw [hkl] at hk; exact absurd hk (by simp)
        | some k => rw [hkl] at hk; exact ⟨k, rfl, hk⟩
      · rintro ⟨p, hp, k, hkl, hsub⟩
        exact ⟨p, hp, by rw [hkl]; exact hsub⟩
    | some ic =>
      have hsub := hno ic hic
      simp only [Registry.is_valid, hic, hsub, Bool.false_eq_true, if_false,
        List.any_eq_true]
      constructor
      · rintro ⟨p, hp, hk⟩
        refine ⟨p, hp, ?_⟩
        cases hkl : p.2.klass with
        | none => rw [hkl] at hk; exact absurd hk (by simp)
        | some k => rw [hkl] at hk; exact ⟨k, rfl, hk⟩
      · rintro ⟨p, hp, k, hkl, hs⟩
        exact ⟨p, hp, by rw [hkl]; exact hs⟩

/-! ### Claims C4 and C5: parent/child validation -/

/-- The scenario's child `C1`: declared valid only for parent `p1`. -/
def implC1h : Impl := { id := 21, slug := some "c1", parent_slug := some "p1" }

/-- The scenario's child `C2`: declared valid only for parent `p2`. -/
def implC2h : Impl := { id := 22, slug := some "c2", parent_slug := some "p2" }

/-- The scenario's child `C3`: declared valid for both parents. -/
def implC3h : Impl := { id := 23, slug := some "c3", parent_slugs := some ["p1", "p2"] }

/-- The scenario's child catalog, all three children registered in one
hierarchical registry (which declares no registry-level `parent_slugs`). -/
def catH : Catalog :=
  [("c1", Registry.build_implementation_meta implC1h),
   ("c2", Registry.build_implementation_meta implC2h),
   ("c3", Registry.build_implementation_meta implC3h)]

/-- C4 counterexample: the claim requires
`validateParentChildRelationship(P2, C1) = false`, but the code returns
true — the method never consults the child's own parent declaration (which
does exclude `p2`, as the second conjunct shows). -/
theorem C4_parent_child_counterexample :
    HierarchicalRegistry.validate_parent_child_relationship none catH "p2" "c1" = true
    ∧ HierarchicalInterface.is_valid_for_parent implC1h "p2" = false := by
  exact ⟨rfl, rfl⟩

/-- C4 amended: per-child parent declarations are honoured by
`HierarchicalInterface.is_valid_for_parent`, which shows exactly the
claimed true/false pattern — but `validate_parent_child_relationship`
ignores them: for registered children it depends only on the registry-level
allowed-parents list (first conjunct), so in the scenario (no registry-level
list) all four queries return true. -/
theorem C4_parent_child_amended :
    (∀ (hp : Option (List String)) (cat : Catalog) (p c c' : String),
        (cat.lookup c).isSome = true → (cat.lookup c').isSome = true →
        HierarchicalRegistry.validate_parent_child_relationship hp cat p c
          = HierarchicalRegistry.validate_parent_child_relationship hp cat p c')
    ∧ HierarchicalRegistry.validate_parent_child_relationship none catH "p1" "c1" = true
    ∧ HierarchicalRegistry.validate_parent_child_relationship none catH "p2" "c1" = true
    ∧ HierarchicalRegistry.validate_parent_child_relationship none catH "p1" "c3" = true
    ∧ HierarchicalRegistry.validate_parent_child_relationship none catH "p2" "c3" = true
    ∧ HierarchicalInterface.is_valid_for_parent implC1h "p1" = true
    ∧ HierarchicalInterface.is_valid_for_parent implC1h "p2" = false
    ∧ HierarchicalInterface.is_valid_for_parent implC2h "p1" = false
    ∧ HierarchicalInterface.is_valid_for_parent implC2h "p2" = true
    ∧ HierarchicalInterface.is_valid_for_parent implC3h "p1" = true
    ∧ HierarchicalInterface.is_valid_for_parent implC3h "p2" = true := by
  refine ⟨?_, rfl, rfl, rfl, rfl, rfl, rfl, rfl, rfl, rfl, rfl⟩
  intro hp cat p c c' hc hc'
  unfold HierarchicalRegistry.validate_parent_child_relationship
  by_cases h1 : truthyList hp = true
  · by_cases h2 : (hp.getD []).contains p <;> simp [h1, h2, hc, hc']
  · simp only [Bool.not_eq_true] at h1
    simp [h1, hc, hc']

/-- A minimal registered child for the C5 counterexample. -/
def implC0 : Impl := { id := 30, slug := some "c" }

/-- A catalog with just that child. -/
def catC0 : Catalog := [("c", Registry.build_implementation_meta implC0)]

/-- C5 counterexample: with the registry-level list *set but empty*
(`parent_slugs = []`), the code treats it as "no restriction" and returns
true, while the claim's reading ("unset OR contains parentSlug") demands
false. -/
theorem C5_empty_list_counterexample :
    HierarchicalRegistry.validate_parent_child_relationship (some []) catC0 "p" "c" = true
    ∧ validate_parent_child_relationship_spec (some []) catC0 "p" "c" = false := by
  exact ⟨rfl, rfl⟩

/-- C5 amended: `validate_parent_child_relationship` is true iff the child
slug is registered AND (the allowed-parents list is unset *or empty* OR
contains the parent slug); whenever the list is absent or non-empty this
coincides with the claim's own reading. -/
theorem C5_validate_parent_child_amended (hp : Option (List String)) (cat : Catalog)
    (p c : String) :
    HierarchicalRegistry.validate_parent_child_relationship hp cat p c
      = ((cat.lookup c).isSome && (!truthyList hp || (hp.getD []).contains p))
    ∧ (hp = none ∨ truthyList hp = true →
        HierarchicalRegistry.validate_parent_child_relationship hp cat p c
          = validate_parent_child_relationship_spec hp cat p c) := by
  constructor
  · unfold HierarchicalRegistry.validate_parent_child_relationship
    by_cases h1 : truthyList hp = true
    · by_cases h2 : (hp.getD []).contains p <;> simp [h1, h2, Bool.and_comm]
    · simp only [Bool.not_eq_true] at h1
      simp [h1]
  · intro hcase
    unfold HierarchicalRegistry.validate_parent_child_relationship
      validate_parent_child_relationship_spec
    cases hcase with
    | inl h =>
      subst h
      simp [truthyList]
    | inr h =>
      cases hp with
      | none => exact absurd h (by simp [truthyList])
      | some l =>
        have hl : l.isEmpty = false := by
          simpa [truthyList] using h
        by_cases h2 : l.contains p = true
        · simp [truthyList, hl, h2, Bool.and_comm]
        · simp only [Bool.not_eq_true] at h2
          simp [truthyList, hl, h2, Bool.and_comm]

/-! ### Claim C6: re-registration semantics -/

/-- C6: re-registering the *identical* class under an existing slug emits no
overwrite warning, keeps the key set unchanged and leaves exactly one entry
for the slug; registering a *different* class under an existing slug emits
the warning and is observable through `get_class`, which afterwards returns
the new class; and registration never duplicates a slug (key uniqueness is
preserved). -/
theorem C6_overwrite_and_idempotence (cfg : RegistryConfig) (cat : Catalog)
    (env : ImportEnv) (impl : Impl) (s : String) :
    (∀ old cat' evs, impl.slug = some s → cat.lookup s = some old →
      old.klass.map Impl.id = some impl.id →
      Registry.register cfg cat impl = .ok (cat', evs) →
        Event.warnOverwrite s ∉ evs
        ∧ cat'.map Prod.fst = cat.map Prod.fst
        ∧ ((cat.map Prod.fst).Nodup → (cat'.map Prod.fst).count s = 1))
    ∧ (∀ old cat' evs, impl.slug = some s → cat.lookup s = some old →
        old.klass.map Impl.id ≠ some impl.id →
        Registry.register cfg cat impl = .ok (cat', evs) →
          Event.warnOverwrite s ∈ evs
          ∧ Registry.get_class cat' env (some s) none = .ok (some impl))
    ∧ (∀ cat' evs, Registry.register cfg cat impl = .ok (cat', evs) →
        (cat.map Prod.fst).Nodup → (cat'.map Prod.fst).Nodup) := by
  have hok : ∀ cat' evs, Registry.register cfg cat impl = .ok (cat', evs) →
      ∃ s', impl.slug = some s' ∧ s' ≠ ""
        ∧ cat' = dictInsert cat s' (Registry.build_implementation_meta impl)
        ∧ evs = (match cat.lookup s' with
            | some old => if old.klass.map Impl.id = some impl.id then []
                          else [Event.warnOverwrite s']
            | none => []) ++ [Event.stored s', Event.cacheCleared,
              Event.onRegisterHook s', Event.signalRegistered s'] := by
    intro cat' evs h
    unfold Registry.register Registry.registerWith at h
    cases hv : Registry.validate_implementation cfg impl with
    | error e => rw [hv] at h; exact absurd h (by simp)
    | ok u =>
      have ht : truthyStr impl.slug = true := by
        by_cases ht : truthyStr impl.slug = true
        · exact ht
        · simp only [Bool.not_eq_true] at ht
          rw [Registry.validate_implementation, ht] at hv
          exact absurd hv (by simp)
      rw [hv] at h
      cases hs : impl.slug with
      | none => rw [hs] at h; exact absurd h (by simp)
      | some s' =>
        rw [hs] at h
        rw [hs] at ht
        simp only [Except.ok.injEq, Prod.mk.injEq] at h
        refine ⟨s', rfl, ?_, h.1.symm, h.2.symm⟩
        simpa [truthyStr] using ht
  refine ⟨?_, ?_, ?_⟩
  · intro old cat' evs hs hl hid hreg
    obtain ⟨s', hs', hne, hcat', hevs⟩ := hok cat' evs hreg
    rw [hs] at hs'
    injection hs' with hseq
    subst hseq
    subst hcat'
    constructor
    · rw [hevs]
      simp [hl, hid]
    constructor
    · exact keys_dictInsert_present cat s _ (by simp [hl])
    · intro hnodup
      rw [keys_dictInsert_present cat s _ (by simp [hl])]
      exact List.count_eq_one_of_mem hnodup
        (mem_keys_of_lookup_isSome cat s (by simp [hl]))
  · intro old cat' evs hs hl hid hreg
    obtain ⟨s', hs', hne, hcat', hevs⟩ := hok cat' evs hreg
    rw [hs] at hs'
    injection hs' with hseq
    subst hseq
    subst hcat'
    constructor
    · rw [hevs]
      simp [hl, hid]
    · have hlook := lookup_dictInsert_self cat s
        (Registry.build_implementation_meta impl)
      have hts : truthyStr (some s) = true := by simp [truthyStr, hne]
      simp only [Registry.get_class, hts, eq_self_iff_true, if_true, Option.getD_some]
      rw [hlook]
      rfl
  · intro cat' evs hreg hnodup
    obtain ⟨s', _, _, hcat', _⟩ := hok cat' evs hreg
    subst hcat'
    exact keys_nodup_dictInsert cat s' _ hnodup

/-! ### Claim C8: context filtering -/

/-- The condition "context.premium is true". -/
def premiumCond : Cond := .pred (fun ctx => ctxGet ctx "premium")

/-- A `ConditionalInterface` implementation gated on `premiumCond`. -/
def implPrem : Impl :=
  { id := 40, slug := some "prem", avail := some (condIsAvailable (some premiumCond)) }

/-- An implementation exposing no availability predicate at all. -/
def implBasic : Impl := { id := 41, slug := some "basic" }

/-- The catalog for the premium-filtering scenario. -/
def catAvail : Catalog :=
  [("prem", Registry.build_implementation_meta implPrem),
   ("basic", Registry.build_implementation_meta implBasic)]

/-- C8: `get_available_implementations` returns exactly the entries whose
implementation either exposes no availability predicate or whose predicate
holds in the context; concretely, the premium-gated entry is present for
`{premium: true}` and absent for `{premium: false}` and for `{}`, while the
predicate-less entry is always present. -/
theorem C8_available_implementations (cat : Catalog) (context : Option Ctx) :
    (∀ s ko, (s, ko) ∈ Registry.get_available_implementations cat context ↔
      ∃ m, (s, m) ∈ cat ∧ m.klass = ko ∧ availPass m context = true)
    ∧ (∀ s m, (s, m) ∈ cat →
        (m.klass = none ∨ ∃ k, m.klass = some k ∧ k.avail = none) →
        (s, m.klass) ∈ Registry.get_available_implementations cat context)
    ∧ Registry.get_available_implementations catAvail (some [("premium", true)])
        = [("prem", some implPrem), ("basic", some implBasic)]
    ∧ Registry.get_available_implementations catAvail (some [("premium", false)])
        = [("basic", some implBasic)]
    ∧ Registry.get_available_implementations catAvail (some [])
        = [("basic", some implBasic)] := by
  refine ⟨?_, ?_, rfl, rfl, rfl⟩
  · intro s ko
    simp only [Registry.get_available_implementations, List.mem_map, List.mem_filter]
    constructor
    · rintro ⟨⟨p1, p2⟩, ⟨hp, hpass⟩, heq⟩
      simp only [Prod.mk.injEq] at heq
      obtain ⟨h1, h2⟩ := heq
      subst h1
      exact ⟨p2, hp, h2, hpass⟩
    · rintro ⟨m, hm, hk, hpass⟩
      exact ⟨(s, m), ⟨hm, hpass⟩, by rw [hk]⟩
  · intro s m hm hnone
    have hpass : availPass m context = true := by
      unfold availPass
      cases hnone with
      | inl h => rw [h]
      | inr h =>
        obtain ⟨k, hk, hav⟩ := h
        rw [hk]
        show (match k.avail with | some f => f context | none => true) = true
        rw [hav]
    simp only [Registry.get_available_implementations, List.mem_map, List.mem_filter]
    exact ⟨(s, m), ⟨hm, hpass⟩, rfl⟩

/-! ### Claim C9: choice ordering -/

/-- Priority 10 entry of the concrete ordering scenario. -/
def implPa : Impl := { id := 50, slug := some "a", priority := 10 }

/-- Priority 20 entry of the concrete ordering scenario. -/
def implPb : Impl := { id := 51, slug := some "b", priority := 20 }

/-- A catalog declaring `b` (priority 20) *before* `a` (priority 10). -/
def catPr : Catalog :=
  [("b", Registry.build_implementation_meta implPb),
   ("a", Registry.build_implementation_meta implPa)]

/-- Two equal-priority entries, `x` declared before `y`. -/
def implTx : Impl := { id := 52, slug := some "x", priority := 5 }

/-- Second of the two equal-priority entries. -/
def implTy : Impl := { id := 53, slug := some "y", priority := 5 }

/-- The equal-priority catalog. -/
def catTie : Catalog :=
  [("x", Registry.build_implementation_meta implTx),
   ("y", Registry.build_implementation_meta implTy)]

/-- C9: `get_choices` renders the catalog stably sorted by ascending
`priority`: the sorted view is a permutation of the catalog, pairwise
nondecreasing in priority, and keeps the catalog order of any two entries
whose priorities already agree with the sort (hence insertion order breaks
ties); concretely priority 10 is listed before priority 20 even when
declared second, and equal priorities keep declaration order. -/
theorem C9_choices_priority_order (disp : Option Impl → String) (cat : Catalog) :
    Registry.get_choices disp cat
        = (cat.insertionSort priorityRel).map (fun p => (p.1, disp p.2.klass))
    ∧ (cat.insertionSort priorityRel).Sorted priorityRel
    ∧ List.Perm (cat.insertionSort priorityRel) cat
    ∧ (∀ x y, List.Sublist [x, y] cat → x.2.priority ≤ y.2.priority →
        List.Sublist [x, y] (cat.insertionSort priorityRel))
    ∧ (Registry.get_choices disp catPr).map Prod.fst = ["a", "b"]
    ∧ (Registry.get_choices disp catTie).map Prod.fst = ["x", "y"] := by
  refine ⟨rfl, List.sorted_insertionSort priorityRel cat,
    List.perm_insertionSort priorityRel cat,
    fun x y hxy hle => List.pair_sublist_insertionSort hle hxy, ?_, ?_⟩
  · simp only [Registry.get_choices, List.map_map]
    rfl
  · simp only [Registry.get_choices, List.map_map]
    rfl

/-! ### Claim C10: context resolution with fallback -/

/-- The requested implementation: premium-gated, so unavailable in `{}`. -/
def implWant : Impl :=
  { id := 60, slug := some "want", avail := some (condIsAvailable (some premiumCond)) }

/-- The fallback implementation: itself premium-gated (unavailable too). -/
def implFb : Impl :=
  { id := 61, slug := some "fb", avail := some (condIsAvailable (some premiumCond)) }

/-- Catalog with an unavailable request and an unavailable fallback. -/
def catFC : Catalog :=
  [("want", Registry.build_implementation_meta implWant),
   ("fb", Registry.build_implementation_meta implFb)]

/-- Catalog with an unavailable request, a missing fallback slug, and an
always-available third party. -/
def catFC2 : Catalog :=
  [("want", Registry.build_implementation_meta implWant),
   ("basic", Registry.build_implementation_meta implBasic)]

/-- C10: when the requested slug resolves but its availability predicate is
false in the context, `get_for_context` returns exactly `get(fallback)`:
the fallback is instantiated without evaluating its own availability (an
unavailable fallback is still returned), and a missing fallback slug
propagates `ImplementationNotFound` rather than falling through to the
first available implementation (concretely: `catFC2` still has an
available entry, yet the miss propagates). -/
theorem C10_fallback_skips_availability (cat : Catalog) (env : ImportEnv)
    (context : Option Ctx) :
    (∀ s fb m k av, s ≠ "" → fb ≠ "" → cat.lookup s = some m → m.klass = some k →
      k.avail = some av → av context = false →
      Registry.get_for_context cat env context (some s) none (some fb)
        = Registry.get cat env (some fb) none)
    ∧ (∀ s fb m k av, s ≠ "" → fb ≠ "" → cat.lookup s = some m → m.klass = some k →
        k.avail = some av → av context = false → cat.lookup fb = none →
        Registry.get_for_context cat env context (some s) none (some fb)
          = .error .notFound)
    ∧ (∀ s fb m k av mf kf, s ≠ "" → fb ≠ "" → cat.lookup s = some m →
        m.klass = some k → k.avail = some av → av context = false →
        cat.lookup fb = some mf → mf.klass = some kf →
        Registry.get_for_context cat env context (some s) none (some fb) = .ok kf)
    ∧ Registry.get_for_context catFC [] (some []) (some "want") none (some "fb")
        = .ok implFb
    ∧ Registry.get_for_context catFC2 [] (some []) (some "want") none (some "nope")
        = .error .notFound
    ∧ Registry.get_available_implementations catFC2 (some [])
        = [("basic", some implBasic)] := by
  have main : ∀ s fb m k av, s ≠ "" → fb ≠ "" → cat.lookup s = some m →
      m.klass = some k → k.avail = some av → av context = false →
      Registry.get_for_context cat env context (some s) none (some fb)
        = Registry.get cat env (some fb) none := by
    intro s fb m k av hs hfb hm hk hav havf
    have hts : truthyStr (some s) = true := by simp [truthyStr, hs]
    have htf : truthyStr (some fb) = true := by simp [truthyStr, hfb]
    have hget : Registry.get cat env (some s) none = .ok k := by
      simp [Registry.get, hts, hm, hk]
    simp only [Registry.get_for_context, hts, if_true, eq_self_iff_true, hget,
      Except.map, hav, havf, Bool.false_eq_true, if_false, htf]
  refine ⟨main, ?_, ?_, ?_, ?_, rfl⟩
  · intro s fb m k av hs hfb hm hk hav havf hmiss
    rw [main s fb m k av hs hfb hm hk hav havf]
    have htf : truthyStr (some fb) = true := by simp [truthyStr, hfb]
    simp [Registry.get, htf, hmiss]
  · intro s fb m k av mf kf hs hfb hm hk hav havf hhit hkf
    rw [main s fb m k av hs hfb hm hk hav havf]
    have htf : truthyStr (some fb) = true := by simp [truthyStr, hfb]
    simp [Registry.get, htf, hhit, hkf]
  · rfl
  · rfl

end DjangoStratagem
